import Mathlib

/-!
Verification of the Specify-API-Middleman-API core against its specification.

This file shallowly embeds the Python sources `app/specify/merge.py`,
`app/specify/api.py` and `app/specify/controller.py` into Lean 4 and proves
or refutes the specification claims about them.

Embedding conventions:
* Python dicts whose iteration order matters become association lists; dicts
  used purely as finite maps become Lean functions into `Option`.
* Python `while True:` loops become fueled step functions; fuel exhaustion is
  a `none`/`.error` result that never occurs on the runs the theorems touch.
* Python exceptions become `Option`/`Except` results.
* Machine integers are `Int`/`Nat`; Python floor division `//` is `Int.fdiv`.
* Query leaves are strings and integers (`float` leaves are unused by the
  claims under study).
-/

/-! ## Query terms (`api.py`)

A query term is a leaf (string or int) or a list of terms, exactly the
dynamic shape `_query_builder` and `deephash` consume. -/

inductive Term where
  | str (s : String)
  | int (n : Int)
  | lst (ts : List Term)

/-- A single-quote character, used by the Python `repr` of strings. -/
def squote : String := String.singleton (Char.ofNat 39)

/-- Python `repr` of a term, as used inside `str` of a list
(`repr("a") = 'a'` with single quotes, `repr(2) = 2`, lists recurse).
Fueled; fuel exhaustion (never reached at the depths used here) yields `""`. -/
def pyReprTerm : Nat → Term → String
  | 0, _ => ""
  | _ + 1, .str s => squote ++ s ++ squote
  | _ + 1, .int n => toString n
  | f + 1, .lst ts => "[" ++ String.intercalate ", " (ts.map (pyReprTerm f)) ++ "]"

/-- Python `str` of a term: strings print bare, everything else as `repr`.
This is the sort key `deephash` uses and the conversion f-strings apply. -/
def pyStrTerm (f : Nat) (t : Term) : String :=
  match t with
  | .str s => s
  | _ => pyReprTerm f t

/-- Fuel large enough for every term appearing in this development. -/
def REPR_FUEL : Nat := 1000

/-- Python string comparison `<` (codepoint-lexicographic), on char lists. -/
def strLtChars : List Char → List Char → Bool
  | [], [] => false
  | [], _ :: _ => true
  | _ :: _, [] => false
  | a :: as, b :: bs =>
    if a.toNat < b.toNat then true
    else if b.toNat < a.toNat then false
    else strLtChars as bs

/-- Python `a < b` on strings. -/
def pyStrLt (a b : String) : Bool := strLtChars a.data b.data

/-- Python `str.endswith`. -/
def pyEndsWith (s suf : String) : Bool :=
  s.data.drop (s.data.length - suf.data.length) = suf.data

/-- Stable insertion of `x` into a sorted list: `x` goes after every element
strictly below it and before equal elements, which together with `pySorted`
models the stability guarantee of Python's `sorted`. -/
def pyInsertSorted (lt : α → α → Bool) (x : α) : List α → List α
  | [] => [x]
  | y :: ys => if lt y x then y :: pyInsertSorted lt x ys else x :: y :: ys

/-- Python's `sorted` (ascending, stable) with strict comparator `lt`. -/
def pySorted (lt : α → α → Bool) : List α → List α
  | [] => []
  | x :: xs => pyInsertSorted lt x (pySorted lt xs)

/-- `deephash` from `api.py`:

    def deephash(li):
        a = sorted(li, key=lambda i: str(i))
        for b, i in enumerate(a):
            if isinstance(b, list):
                a[i] = deephash(b)
        return a

The loop's `enumerate` variables are swapped: `b` is the integer index, so
`isinstance(b, list)` is always false and the body never runs.  The function
therefore just stably sorts the top level by the `str` of each element. -/
def deephash (li : List Term) : List Term :=
  pySorted (fun x y => pyStrLt (pyStrTerm REPR_FUEL x) (pyStrTerm REPR_FUEL y)) li

/-- `SpecifyApi.query_cache_key`: `str([0 if asc else 1, sort if sort else "", deephash(queryTerms)])`.
Python `str` of a list uses `repr` of the elements. -/
def queryCacheKey (queryTerms : List Term) (sort : Option String) (asc : Bool) : String :=
  "[" ++ toString (if asc then (0 : Nat) else 1) ++ ", "
      ++ squote ++ (match sort with | some s => s | none => "") ++ squote ++ ", "
      ++ pyReprTerm REPR_FUEL (.lst (deephash queryTerms)) ++ "]"

/-- `CombinedApi.query_cache_keys`: the global key additionally leads with
`sorted(collections)`. -/
def combinedQueryCacheKeys (queryTerms : List Term) (collections : List String)
    (sort : Option String) (asc : Bool) : String :=
  "[[" ++ String.intercalate ", "
        ((pySorted pyStrLt collections).map (fun c => squote ++ c ++ squote)) ++ "], "
      ++ toString (if asc then (0 : Nat) else 1) ++ ", "
      ++ squote ++ (match sort with | some s => s | none => "") ++ squote ++ ", "
      ++ pyReprTerm REPR_FUEL (.lst (deephash queryTerms)) ++ "]"

/-- Sequence a list of `Option`s (used to model a generator join that raises
as soon as one element raises). -/
def optionAll : List (Option α) → Option (List α)
  | [] => some []
  | none :: _ => none
  | some a :: rest => (optionAll rest).map (a :: ·)

/-- `SpecifyApi._query_builder` from `api.py`.  `resolve` stands for
`column_model._resolve_solrname_from_colname_or_solrname` (returning `none`
where Python raises `KeyError`), and `"coll"` is
`FieldModel.COLLECTION_SOLRNAME`.  `ig` is `ignore_missing`.  `none` models a
raised exception (missing field with `ig = false`, a range with more than
three elements, an empty list, or a list in head position, which Python
rejects as an unhashable dict key). -/
def queryBuilder (resolve : String → Option String) (ig : Bool) : Nat → Term → Option String
  | 0, _ => none
  | _ + 1, .str s => some ("(" ++ s ++ ")")
  | _ + 1, .int n => some ("(" ++ toString n ++ ")")
  | _ + 1, .lst [] => none
  | _ + 1, .lst [t] => some ("(" ++ pyStrTerm REPR_FUEL t ++ ")")
  | f + 1, .lst (t0 :: t1 :: rest) =>
    let tail : String → Option String := fun ret =>
      match t1 :: rest with
      | [u] => (queryBuilder resolve ig f u).map (ret ++ ·)
      | [u, v] => some (ret ++ "[" ++ pyStrTerm REPR_FUEL u ++ " TO " ++ pyStrTerm REPR_FUEL v ++ "]")
      | _ => none
    match t0 with
    | .int n =>
      if n = 1 ∨ n = 2 then
        (optionAll ((t1 :: rest).map (queryBuilder resolve ig f))).map
          (fun ss => "(" ++ String.intercalate (if n = 1 then " OR " else " AND ") ss ++ ")")
      else
        -- an integer head is never a dict key of the schema, so resolution
        -- raises KeyError; with ignore_missing the term becomes "<n>:"
        if ig then tail (toString n ++ ":") else none
    | .str s =>
      match resolve s with
      | some fld => if fld = "coll" then some "*" else tail (fld ++ ":")
      | none => if ig then tail (s ++ ":") else none
    | .lst _ => none

/-- The concrete query of spec §8 scenario 3 and claim C3. -/
def c3Term : Term :=
  .lst [.int 2, .str "david",
        .lst [.int 1, .str "sch*", .str "fer*"],
        .lst [.str "2_latitude1", .int (-180), .int 5],
        .lst [.str "10_startDate", .int 2020]]

/-- C3: for a schema in which every named field resolves to a backend name
equal to itself, translating
`[2,"david",[1,"sch*","fer*"],["2_latitude1",-180,5],["10_startDate",2020]]`
with `AND = 2`, `OR = 1` yields exactly
`((david) AND ((sch*) OR (fer*)) AND 2_latitude1:[-180 TO 5] AND 10_startDate:(2020))`. -/
theorem c3_query_translation (resolve : String → Option String)
    (h1 : resolve "2_latitude1" = some "2_latitude1")
    (h2 : resolve "10_startDate" = some "10_startDate") (ig : Bool) :
    queryBuilder resolve ig 64 c3Term =
      some "((david) AND ((sch*) OR (fer*)) AND 2_latitude1:[-180 TO 5] AND 10_startDate:(2020))" := by
  simp only [c3Term, queryBuilder, optionAll, List.map_cons, List.map_nil, h1, h2]
  norm_num
  decide

/-- Witness for C3 at the identity resolver. -/
theorem c3_query_translation_witness :
    queryBuilder (fun s => some s) true 64 c3Term =
      some "((david) AND ((sch*) OR (fer*)) AND 2_latitude1:[-180 TO 5] AND 10_startDate:(2020))" :=
  c3_query_translation (fun s => some s) rfl rfl true

/-! ### Claim C2: `deephash` invariance under sibling permutation -/

/-- The two C2 probe queries: equal up to permutation of the siblings of the
nested `OR` combinator (depth 1). -/
def c2q1 : List Term := [.int 2, .lst [.int 1, .str "a", .str "b"]]

/-- Same query with the nested combinator's siblings swapped. -/
def c2q2 : List Term := [.int 2, .lst [.int 1, .str "b", .str "a"]]

/-- C2: the claim states that query terms equal up to permutation of sibling
terms within a combinator at any nesting depth share `deephash` and cache
keys.  It fails: because `deephash`'s recursive case is dead code (swapped
`enumerate` variables), a permutation inside a *nested* combinator survives
into the hash, and the per-backend and global cache keys differ.  The nested
sibling lists are genuine permutations of one another. -/
theorem c2_deephash_not_permutation_invariant :
    [Term.int 1, .str "a", .str "b"].Perm [Term.int 1, .str "b", .str "a"] ∧
    pyReprTerm REPR_FUEL (.lst (deephash c2q1)) ≠ pyReprTerm REPR_FUEL (.lst (deephash c2q2)) ∧
    deephash c2q1 ≠ deephash c2q2 ∧
    queryCacheKey c2q1 none false ≠ queryCacheKey c2q2 none false ∧
    combinedQueryCacheKeys c2q1 ["fish"] none false ≠ combinedQueryCacheKeys c2q2 ["fish"] none false := by
  refine ⟨?_, ?_, ?_, ?_, ?_⟩
  · exact List.Perm.cons _ (List.Perm.swap _ _ _)
  · decide
  · intro h
    exact absurd (congrArg (fun l => pyReprTerm REPR_FUEL (.lst l)) h) (by decide)
  · decide
  · decide

/-! ## Schema merge (`merge.py`)

`sort_place` and `merge` operate on lists of single-entry dicts
`{colname: displaycolidx}`, embedded as `List (String × Option Int)`.
The `while True:` loop of `merge` becomes a fueled step function on an
explicit state mirroring the Python locals. -/

/-- Python `list.insert(i, x)` (an index past the end appends). -/
def pyInsert (l : List α) (i : Nat) (x : α) : List α := l.take i ++ x :: l.drop i

/-- `sort_place` from `merge.py`: entries with a numeric value are stably
sorted by it, entries with value `None` are re-inserted at their original
index positions. -/
def sortPlace (a : List (String × Option Int)) : List (String × Option Int) :=
  let na := a.enum.filterMap (fun ci =>
    match ci with
    | (c, (k, none)) => some (k, c)
    | _ => none)
  let aa := a.filter (fun kv => kv.2.isSome)
  let sa := pySorted (fun x y => decide (x.2.getD 0 < y.2.getD 0)) aa
  na.foldl (fun s kc => pyInsert s kc.2 (kc.1, (none : Option Int))) sa

/-- Loop state of `merge`: the Python locals
`ai, bi, d, wina, winb, bk, conflict, ret`.  Window entries are
`Option String` because the sentinel `{None: None}` key can enter a window
when one input is exhausted at conflict start. -/
structure MergeSt where
  ai : Nat
  bi : Nat
  d : Option Int
  wina : List (Option String)
  winb : List (Option String)
  bk : Option String → Option Int
  conflict : Bool
  ret : List (Option String × Option Int)

/-- The emission guard `if None in [pv, d] or d < pv: d = pv` of `merge`:
the value actually appended for an entry. -/
def emitVal (d pv : Option Int) : Option Int :=
  match pv, d with
  | none, _ => none
  | some v, none => some v
  | some v, some dd => if dd < v then some v else some dd

/-- The post-emission `if d is not None: d += 1`. -/
def bump : Option Int → Option Int
  | none => none
  | some d => some (d + 1)

/-- Python truthiness of the `found` local: `False`, `None` and the empty
string are falsy. -/
def foundTruthy : Option (Option String × Option Int) → Bool
  | some (some s, _) => decide (s ≠ "")
  | _ => false

/-- Result of one iteration of `merge`'s `while True:` body. -/
inductive MergeOut where
  | cont (st : MergeSt)
  | done (ret : List (Option String × Option Int))
  | fail

/-- One iteration of the `while True:` loop of `merge` in `merge.py`,
translated clause by clause.  `.fail` models the `ValueError` Python raises
when `max(filter(None, [xv, yv, d]))` is applied to an empty sequence
(note `filter(None, ·)` drops both `None` and `0`). -/
def mergeStep (a b : List (String × Option Int)) (st : MergeSt) : MergeOut :=
  let x : Option String × Option Int :=
    match a[st.ai]? with
    | some kv => (some kv.1, kv.2)
    | none => (none, none)
  let y : Option String × Option Int :=
    match b[st.bi]? with
    | some kv => (some kv.1, kv.2)
    | none => (none, none)
  let xk := x.1
  let xv := x.2
  let yk := y.1
  let yv := y.2
  if xk = none ∧ yk = none ∧ st.conflict = false then .done st.ret
  else if st.conflict = false then
    if xk = yk then
      if xv = yv then
        let d1 := emitVal st.d xv
        .cont { st with d := bump d1, ret := st.ret ++ [(xk, d1)], ai := st.ai + 1, bi := st.bi + 1 }
      else
        match (([xv, yv, st.d].filterMap id).filter (fun v => decide (v ≠ 0))).max? with
        | none => .fail
        | some m =>
          .cont { st with d := some (m + 1), ret := st.ret ++ [(xk, some m)], ai := st.ai + 1, bi := st.bi + 1 }
    else
      .cont { st with conflict := true, wina := [xk], winb := [yk], bk := fun k => if k = yk then yv else if k = xk then xv else none, ai := st.ai + 1, bi := st.bi + 1 }
  else
    let wina1 := if xk.isSome then st.wina ++ [xk] else st.wina
    let ai1 := if xk.isSome then st.ai + 1 else st.ai
    let winb1 := if yk.isSome then st.winb ++ [yk] else st.winb
    let bi1 := if yk.isSome then st.bi + 1 else st.bi
    let found : Option (Option String × Option Int) :=
      if wina1.contains yk then some (yk, yv)
      else if winb1.contains xk then some (xk, xv)
      else none
    let bk1 := if foundTruthy found then st.bk
               else fun k => if k = yk then yv else if k = xk then xv else st.bk k
    let out := xk = none ∧ yk = none ∧ foundTruthy found = false
    if found.isSome ∨ out then
      let cropKey : Option (Option String) := found.map (fun fv => fv.1)
      let posa := wina1.takeWhile (fun k => cropKey ≠ some k)
      let posb := winb1.takeWhile (fun k => cropKey ≠ some k)
      let wina2 := wina1.drop (posa.length + 1)
      let winb2 := winb1.drop (posb.length + 1)
      let keyOf : List (Option String) → String := fun l =>
        match l.head? with
        | some (some s) => s
        | _ => ""
      let pp := if pyStrLt (keyOf posb) (keyOf posa) then (posb, posa) else (posa, posb)
      let ed := (pp.1 ++ pp.2).foldl
        (fun rd k =>
          let nv := emitVal rd.2 (bk1 k)
          (rd.1 ++ [(k, nv)], bump nv))
        (st.ret, st.d)
      let ed2 :=
        if out then ed
        else
          match found with
          | some fv =>
            let nv := emitVal ed.2 fv.2
            (ed.1 ++ [(fv.1, nv)], bump nv)
          | none => ed
      .cont { ai := ai1 - wina2.length, bi := bi1 - winb2.length, d := ed2.2, wina := [], winb := [], bk := bk1, conflict := false, ret := ed2.1 }
    else
      .cont { st with wina := wina1, winb := winb1, ai := ai1, bi := bi1, bk := bk1 }

/-- Fueled driver of the `while True:` loop. -/
def mergeRun (a b : List (String × Option Int)) :
    Nat → MergeSt → Option (List (Option String × Option Int))
  | 0, _ => none
  | f + 1, st =>
    match mergeStep a b st with
    | .done ret => some ret
    | .fail => none
    | .cont st' => mergeRun a b f st'

/-- The initial Python locals of `merge`. -/
def mergeInit : MergeSt :=
  { ai := 0, bi := 0, d := none, wina := [], winb := [], bk := fun _ => none,
    conflict := false, ret := [] }

/-- Fuel comfortably above the iteration count of any run of `merge` on the
inputs considered here. -/
def mergeFuel (a b : List (String × Option Int)) : Nat :=
  (a.length + b.length + 2) * (a.length + b.length + 2)

/-- `merge(a, b)` from `merge.py`: `sort_place` both inputs, then run the
interleaving loop. -/
def pyMerge (a b : List (String × Option Int)) : Option (List (Option String × Option Int)) :=
  mergeRun (sortPlace a) (sortPlace b) (mergeFuel a b) mergeInit

/-- Faithfulness check: `sort_place` on the data of `TestMerge.test_sort`
in `merge.py` reproduces the expected output asserted by that unittest. -/
theorem sortPlace_matches_unittest :
    sortPlace [("bob", none), ("aob", none), ("john", some 0), ("jen", some 2),
               ("asd", none), ("andy", some 1), ("tum", some 10), ("tim", some 3),
               ("work", some 6), ("no", some 4), ("gum", some 8), ("go", some 5),
               ("pen", some 7), ("mug", some 9), ("hit", none), ("aja", some 11),
               ("mm", none), ("nn", none)] =
      [("bob", none), ("aob", none), ("john", some 0), ("andy", some 1),
       ("asd", none), ("jen", some 2), ("tim", some 3), ("no", some 4),
       ("go", some 5), ("work", some 6), ("pen", some 7), ("gum", some 8),
       ("mug", some 9), ("tum", some 10), ("hit", none), ("aja", some 11),
       ("mm", none), ("nn", none)] := by
  decide

set_option maxRecDepth 8192 in
/-- Faithfulness check: `merge` on the data of `TestMerge.test_merge`
in `merge.py` reproduces the expected output asserted by that unittest. -/
theorem pyMerge_matches_unittest :
    pyMerge
      [("bob", none), ("john", some 0), ("andy", some 1), ("dome", none),
       ("jen", some 2), ("tim", some 3), ("no", some 4), ("go", some 5),
       ("work", some 6), ("pen", some 7), ("gum", some 8), ("mug", some 9),
       ("tum", some 10), ("hit", none), ("mm", none), ("nn", none)]
      [("bob", none), ("john", some 0), ("andy", some 2), ("k", some 1),
       ("dome", none), ("foam", none), ("dog", some 3), ("tim", some 4),
       ("work", some 5), ("mun", some 6), ("hit", none), ("bit", none)] =
      some
      [(some "bob", none), (some "john", some 0), (some "k", some 1),
       (some "andy", some 2), (some "dome", none), (some "foam", none),
       (some "dog", some 3), (some "jen", some 4), (some "tim", some 5),
       (some "no", some 6), (some "go", some 7), (some "work", some 8),
       (some "mun", some 9), (some "pen", some 10), (some "gum", some 11),
       (some "mug", some 12), (some "tum", some 13), (some "hit", none),
       (some "bit", none), (some "mm", none), (some "nn", none)] := by
  decide

/-! ## Columns and field models (`api.py`) -/

/-- The `solrtype` values of the data model (§3 of the spec; the pydantic
`SolrType` enum in `api.py`). -/
inductive SolrType where
  | string
  | tdouble
  | int
  | list
deriving DecidableEq

/-- Position in `Column.SOLRTYPE_HEIRARCHY = ['string','tdouble','int','list']`. -/
def SolrType.hierIdx : SolrType → Nat
  | .string => 0
  | .tdouble => 1
  | .int => 2
  | .list => 3

/-- The lookup table of `Column._determine_type`. -/
def solrTypeLookup : SolrType → String
  | .int => "java.lang.String"
  | .string => "java.lang.String"
  | .tdouble => "java.math.BigDecimal"
  | .list => "java.util.Arrays"

/-- The keyword arguments accepted by `Column.__init__` (`**fields`): the
three required fields plus the optional ones, `none` meaning absent.
`advancedsearch` strings are `some`; the Python default `False` is `none`. -/
structure ColumnFields where
  colname : String
  solrname : String
  solrtype : SolrType
  title : Option String := none
  type : Option String := none
  width : Option Int := none
  sptable : Option String := none
  sptabletitle : Option String := none
  spfld : Option String := none
  spfldtitle : Option String := none
  treeid : Option String := none
  treerank : Option Int := none
  colidx : Option Int := none
  advancedsearch : Option String := none
  displaycolidx : Option Int := none
deriving DecidableEq

/-- The `self.model` dict a constructed `Column` carries. -/
structure Column where
  colname : String
  solrname : String
  solrtype : SolrType
  title : String
  type : String
  width : Option Int
  sptable : Option String
  sptabletitle : Option String
  spfld : Option String
  spfldtitle : Option String
  treeid : Option String
  treerank : Option Int
  colidx : Option Int
  advancedsearch : Option String
  displaycolidx : Option Int
deriving DecidableEq

/-- `Column._determine_type` applied to the raw constructor kwargs, as the
`type` default lambda does: `col.get('title','')` reads the *kwargs* dict,
so an absent title reads as `""`. -/
def determineTypeFields (f : ColumnFields) : String :=
  if pyEndsWith (f.title.getD "") "Date" = true ∧ f.solrtype = SolrType.int then "java.util.Calendar"
  else solrTypeLookup f.solrtype

/-- `Column._determine_type` applied to the built `self.model` (used by the
`solrname == 'img'` special case, after `solrtype` was forced to `list`). -/
def determineTypeModel (title : String) (st : SolrType) : String :=
  if pyEndsWith title "Date" = true ∧ st = SolrType.int then "java.util.Calendar"
  else solrTypeLookup st

/-- `Column.__init__`: required fields copied, optional fields defaulted
(`title ← colname`, `type ← _determine_type(fields)`, rest absent), then the
`solrname == 'img'` special case forces `solrtype = list` and rederives
`type` from the built model. -/
def mkColumn (f : ColumnFields) : Column :=
  let c : Column :=
    { colname := f.colname, solrname := f.solrname, solrtype := f.solrtype,
      title := f.title.getD f.colname,
      type := f.type.getD (determineTypeFields f),
      width := f.width, sptable := f.sptable, sptabletitle := f.sptabletitle,
      spfld := f.spfld, spfldtitle := f.spfldtitle, treeid := f.treeid,
      treerank := f.treerank, colidx := f.colidx,
      advancedsearch := f.advancedsearch, displaycolidx := f.displaycolidx }
  if f.solrname = "img" then
    { c with solrtype := SolrType.list, type := determineTypeModel c.title SolrType.list }
  else c

/-- C8 counterexample: a `Column` built without an explicit title whose
colname ends in `"Date"` with `solrtype = int`.  The claim requires its type
to be `java.util.Calendar`, but the type-derivation lambda reads the raw
kwargs (where `title` is absent, hence `''`), so the Date rule never fires
and the type is `java.lang.String`. -/
theorem c8_title_type_counterexample :
    (mkColumn { colname := "startDate", solrname := "sd", solrtype := SolrType.int }).title = "startDate" ∧
    pyEndsWith (mkColumn { colname := "startDate", solrname := "sd", solrtype := SolrType.int }).title "Date" = true ∧
    (mkColumn { colname := "startDate", solrname := "sd", solrtype := SolrType.int }).solrtype = SolrType.int ∧
    (mkColumn { colname := "startDate", solrname := "sd", solrtype := SolrType.int }).type = "java.lang.String" ∧
    (mkColumn { colname := "startDate", solrname := "sd", solrtype := SolrType.int }).type ≠ "java.util.Calendar" := by
  decide

/-- C8 (amended): for every `Column` constructed without an explicit title
and without an explicit type, the effective title is the colname, and the
type is always given by the lookup table applied to the effective
`solrtype` — the `"Date"`/`Calendar` rule never fires, because the type
derivation consults the raw constructor kwargs, in which the title is
absent. -/
theorem c8_title_and_type_defaults (f : ColumnFields)
    (ht : f.title = none) (hy : f.type = none) :
    (mkColumn f).title = f.colname ∧
    (mkColumn f).type = solrTypeLookup (mkColumn f).solrtype := by
  have hends : pyEndsWith "" "Date" = false := by decide
  obtain ⟨colname, solrname, solrtype, title, type, w, s1, s2, s3, s4, s5, s6, s7, s8, s9⟩ := f
  cases ht
  cases hy
  simp only [mkColumn, determineTypeFields, determineTypeModel, Option.getD_none]
  by_cases himg : solrname = "img" <;> simp [himg, hends, solrTypeLookup]

/-- Witness for the amended C8 at a concrete column. -/
theorem c8_title_and_type_defaults_witness :
    (mkColumn { colname := "lat", solrname := "sd", solrtype := SolrType.tdouble }).title = "lat" ∧
    (mkColumn { colname := "lat", solrname := "sd", solrtype := SolrType.tdouble }).type =
      solrTypeLookup (mkColumn { colname := "lat", solrname := "sd", solrtype := SolrType.tdouble }).solrtype :=
  c8_title_and_type_defaults { colname := "lat", solrname := "sd", solrtype := SolrType.tdouble } rfl rfl

/-- A `FieldModel` is its ordered column list. -/
structure FieldModel where
  columns : List Column

/-- The synthetic leading column `FieldModel.__init__` creates when the
first column is not `collection`. -/
def collectionColumn : Column :=
  mkColumn { colname := "collection", solrname := "coll", solrtype := SolrType.string,
             advancedsearch := some "True", colidx := some 0, displaycolidx := some 0 }

/-- The `+1` shift `FieldModel.__init__` applies to every other column's
`colidx`/`displaycolidx` when it synthesizes the `collection` column. -/
def shiftColumn (c : Column) : Column :=
  { c with colidx := c.colidx.map (fun i => i + 1),
           displaycolidx := c.displaycolidx.map (fun i => i + 1) }

/-- `FieldModel.__init__`: fails (Python `IndexError`) on an empty column
list; synthesizes and shifts when the first column is not `collection`. -/
def fieldModelMk (cols : List Column) : Option FieldModel :=
  match cols with
  | [] => none
  | c0 :: _ =>
    if c0.colname = "collection" then some ⟨cols⟩
    else some ⟨collectionColumn :: cols.map shiftColumn⟩

/-- `FieldModel.get(colname)` as an `Option`.  `_col_dict` is built by a
dict comprehension over the columns in order, so on duplicate colnames the
last column wins. -/
def FieldModel.get (m : FieldModel) (k : String) : Option Column :=
  (m.columns.filter (fun c => c.colname = k)).getLast?

/-- `FieldModel.premerge_repr`: the `{colname: displaycolidx}` list fed to
`merge`. -/
def FieldModel.premerge (m : FieldModel) : List (String × Option Int) :=
  m.columns.map (fun c => (c.colname, c.displaycolidx))

/-- Python `max([a, b])` on strings (first element wins ties). -/
def pyStrMax (a b : String) : String := if pyStrLt a b then b else a

/-- `_max_with_none` of `Column.merged_column` on integers. -/
def maxWithNone (a b : Option Int) : Option Int :=
  match a, b with
  | none, _ => b
  | some x, none => some x
  | some x, some y => if x > y then some x else some y

/-- `_max_with_none` on strings (`sptabletitle`). -/
def maxWithNoneStr (a b : Option String) : Option String :=
  match a, b with
  | none, _ => b
  | some x, none => some x
  | some x, some y => if pyStrLt y x then some x else some y

/-- `assert_equal` of `Column.merged_column` (`TypeError` on mismatch). -/
def assertEq [DecidableEq α] (a b : α) : Option α := if a = b then some a else none

/-- `Column.merged_column`: combine two columns field by field per
`merge_rules`, then rebuild through `Column(**merged)` (which re-applies the
`img` special case).  `none` models a raised `TypeError`. -/
def mergedColumn (a b : Column) : Option Column := do
  let colname ← assertEq a.colname b.colname
  let title ← assertEq a.title b.title
  let type ← assertEq a.type b.type
  let sptable ← assertEq a.sptable b.sptable
  let spfld ← assertEq a.spfld b.spfld
  let spfldtitle ← assertEq a.spfldtitle b.spfldtitle
  let treeid ← assertEq a.treeid b.treeid
  let treerank ← assertEq a.treerank b.treerank
  let advancedsearch ←
    if a.advancedsearch = some "true" ∨ b.advancedsearch = some "true" then some (some "true")
    else if a.advancedsearch = b.advancedsearch then some a.advancedsearch
    else none
  pure (mkColumn
    { colname := colname,
      solrname := pyStrMax a.solrname b.solrname,
      solrtype := if a.solrtype.hierIdx ≤ b.solrtype.hierIdx then a.solrtype else b.solrtype,
      title := some title, type := some type,
      width := maxWithNone a.width b.width,
      sptable := sptable,
      sptabletitle := maxWithNoneStr a.sptabletitle b.sptabletitle,
      spfld := spfld, spfldtitle := spfldtitle, treeid := treeid, treerank := treerank,
      colidx := maxWithNone a.colidx b.colidx,
      advancedsearch := advancedsearch,
      displaycolidx := maxWithNone a.displaycolidx b.displaycolidx })

/-- The per-entry step of `FieldModel.merged_model`: locate the column(s)
for a merged colname, merge when both models have it, then overwrite the
display index with the merge position. -/
def buildMergedCols (A B : FieldModel) : List (Option String × Option Int) → Option (List Column)
  | [] => some []
  | (none, _) :: _ => none
  | (some k, v) :: rest => do
    let m ← match [A.get k, B.get k].filterMap id with
      | [] => none
      | [c] => some c
      | c1 :: c2 :: _ => mergedColumn c1 c2
    let tail ← buildMergedCols A B rest
    pure ({ m with displaycolidx := v } :: tail)

/-- `FieldModel.merged_model`: merge the premerge representations, build the
merged columns, then construct the resulting `FieldModel`. -/
def FieldModel.mergedModel (A B : FieldModel) : Option FieldModel := do
  let rep ← pyMerge A.premerge B.premerge
  let cols ← buildMergedCols A B rep
  fieldModelMk cols

/-- A plain string column with equal colname/solrname at a display index. -/
def simpleCol (name : String) (i : Int) : Column :=
  mkColumn { colname := name, solrname := name, solrtype := SolrType.string,
             colidx := some i, displaycolidx := some i }

/-- C1 failing input, model A: display order `collection, a, b`. -/
def c1A : FieldModel := ⟨[collectionColumn, simpleCol "a" 1, simpleCol "b" 2]⟩

/-- C1 failing input, model B: display order `collection, b, a`. -/
def c1B : FieldModel := ⟨[collectionColumn, simpleCol "b" 1, simpleCol "a" 2]⟩

/-- C1: on two field models whose non-collection columns appear in opposite
display orders, `merged_model` emits the colname `b` twice — the merged
model does not contain every colname exactly once, contradicting the claim
(and the data-model invariant that colnames are unique within a
FieldModel). -/
theorem c1_merge_duplicates_colname :
    (c1A.mergedModel c1B).map (fun m => m.columns.map (fun c => c.colname)) =
      some ["collection", "b", "a", "b"] ∧
    (c1A.mergedModel c1B).map (fun m => (m.columns.map (fun c => c.colname)).count "b") =
      some 2 := by
  constructor
  · decide
  · decide

/-- C7 counterexample input: a field model whose columns are not listed in
display order (`x` at display 2 before `y` at display 1). -/
def c7Bad : FieldModel := ⟨[collectionColumn, simpleCol "x" 2, simpleCol "y" 1]⟩

/-- C7 counterexample: merging a `FieldModel` with itself does not in
general reproduce the same colnames in the same order — `merge` first
display-sorts both inputs, so a model whose column list is not in display
order comes back reordered. -/
theorem c7_merge_self_counterexample :
    (c7Bad.mergedModel c7Bad).map (fun m => m.columns.map (fun c => c.colname)) =
      some ["collection", "y", "x"] ∧
    c7Bad.columns.map (fun c => c.colname) = ["collection", "x", "y"] := by
  constructor
  · decide
  · decide

/-- Constructor-validity of a column: `Column.__init__` forces every column
named `img` to `solrtype = list` with the rederived `Arrays` type, so any
column that came out of the constructor satisfies this. -/
def ColumnWF (c : Column) : Prop :=
  c.solrname = "img" → (c.solrtype = SolrType.list ∧ c.type = "java.util.Arrays")

instance (c : Column) : Decidable (ColumnWF c) := by
  unfold ColumnWF
  infer_instance

theorem maxWithNone_self (x : Option Int) : maxWithNone x x = x := by
  cases x with
  | none => rfl
  | some v => simp [maxWithNone]

theorem maxWithNoneStr_self (x : Option String) : maxWithNoneStr x x = x := by
  cases x with
  | none => rfl
  | some v => simp [maxWithNoneStr]

theorem assertEq_self [DecidableEq α] (a : α) : assertEq a a = some a := by
  simp [assertEq]

/-- Merging a constructor-valid column with itself gives it back. -/
theorem mergedColumn_self (c : Column) (h : ColumnWF c) : mergedColumn c c = some c := by
  obtain ⟨cn, sn, st, ti, ty, w, s1, s2, s3, s4, s5, s6, s7, adv, dc⟩ := c
  by_cases ha : adv = some "true"
  · subst ha
    simp only [mergedColumn, assertEq_self, pyStrMax, maxWithNone_self, maxWithNoneStr_self,
      Option.bind_eq_bind, Option.some_bind, ite_self, or_self, if_pos]
    by_cases himg : sn = "img"
    · obtain ⟨hst, hty⟩ := h himg
      simp only at hst hty
      subst hst
      subst hty
      simp [mkColumn, himg, determineTypeModel, solrTypeLookup]
    · simp [mkColumn, himg]
  · simp only [mergedColumn, assertEq_self, pyStrMax, maxWithNone_self, maxWithNoneStr_self,
      Option.bind_eq_bind, Option.some_bind, ite_self, ha, or_self, if_neg, if_pos,
      not_false_eq_true]
    by_cases himg : sn = "img"
    · obtain ⟨hst, hty⟩ := h himg
      simp only at hst hty
      subst hst
      subst hty
      simp [mkColumn, himg, determineTypeModel, solrTypeLookup]
    · simp [mkColumn, himg]

/-- The display-index condition under which the emission counter of `merge`
reproduces every value of a walked list: numeric display indices strictly
increase between `None` entries (a `None` entry resets the counter). -/
def walkOKd : Option Int → List (String × Option Int) → Bool
  | _, [] => true
  | _, (_, none) :: rest => walkOKd none rest
  | d, (_, some v) :: rest =>
    (match d with
     | none => true
     | some dd => decide (dd ≤ v)) && walkOKd (some (v + 1)) rest

/-- Driver step: a `.cont` iteration of the merge loop consumes one fuel. -/
theorem mergeRun_cont (a b : List (String × Option Int)) (f : Nat) (st st' : MergeSt)
    (h : mergeStep a b st = .cont st') : mergeRun a b (f + 1) st = mergeRun a b f st' := by
  simp [mergeRun, h]

/-- Driver step: a `.done` iteration of the merge loop returns. -/
theorem mergeRun_done (a b : List (String × Option Int)) (f : Nat) (st : MergeSt)
    (ret : List (Option String × Option Int))
    (h : mergeStep a b st = .done ret) : mergeRun a b (f + 1) st = some ret := by
  simp [mergeRun, h]

/-- `mergeStep` on two exhausted inputs outside a conflict terminates. -/
theorem mergeStep_done (p q : List (String × Option Int)) (i j : Nat) (d : Option Int)
    (bk : Option String → Option Int) (r : List (Option String × Option Int))
    (ha : p[i]? = none) (hb : q[j]? = none) :
    mergeStep p q
      { ai := i, bi := j, d := d, wina := [], winb := [], bk := bk, conflict := false, ret := r } =
      .done r := by
  simp [mergeStep, ha, hb]

/-- `mergeStep` outside a conflict, with the same current entry on both
sides, emits that entry and advances both indices. -/
theorem mergeStep_same (p q : List (String × Option Int)) (i j : Nat) (d : Option Int)
    (bk : Option String → Option Int) (r : List (Option String × Option Int))
    (k : String) (v : Option Int)
    (ha : p[i]? = some (k, v)) (hb : q[j]? = some (k, v)) :
    mergeStep p q
      { ai := i, bi := j, d := d, wina := [], winb := [], bk := bk, conflict := false, ret := r } =
      .cont { ai := i + 1, bi := j + 1, d := bump (emitVal d v), wina := [], winb := [], bk := bk, conflict := false, ret := r ++ [(some k, emitVal d v)] } := by
  simp [mergeStep, ha, hb]

/-- Walking `merge` over one list against itself (no conflict ever arises)
emits exactly the remaining entries, provided the display indices satisfy
`walkOKd`. -/
theorem mergeRun_walk_eq (p : List (String × Option Int)) :
    ∀ fuel i d bk r, p.length - i < fuel → walkOKd d (List.drop i p) = true →
      mergeRun p p fuel
        { ai := i, bi := i, d := d, wina := [], winb := [], bk := bk,
          conflict := false, ret := r } =
      some (r ++ (List.drop i p).map (fun kv => (some kv.1, kv.2))) := by
  intro fuel
  induction fuel with
  | zero => intro i d bk r hf hw; omega
  | succ f ih =>
    intro i d bk r hf hw
    cases h : p[i]? with
    | none =>
      have hlen : p.length ≤ i := by
        by_contra hh
        push_neg at hh
        rw [List.getElem?_eq_getElem hh] at h
        exact Option.noConfusion h
      have hdrop : List.drop i p = [] := List.drop_eq_nil_of_le hlen
      rw [mergeRun_done p p f _ r (mergeStep_done p p i i d bk r h h)]
      simp [hdrop]
    | some kv =>
      obtain ⟨k, v⟩ := kv
      have hlt : i < p.length := by
        by_contra hh
        push_neg at hh
        rw [List.getElem?_eq_none hh] at h
        exact Option.noConfusion h
      have hdrop : List.drop i p = (k, v) :: List.drop (i + 1) p := by
        rw [List.drop_eq_getElem_cons hlt]
        congr 1
        have h2 := List.getElem?_eq_getElem hlt
        rw [h] at h2
        exact (Option.some.injEq _ _).mp h2.symm
      rw [hdrop] at hw
      have hstep : emitVal d v = v ∧ walkOKd (bump v) (List.drop (i + 1) p) = true := by
        cases v with
        | none =>
          refine ⟨rfl, ?_⟩
          simpa [walkOKd, bump] using hw
        | some vv =>
          simp only [walkOKd, Bool.and_eq_true] at hw
          obtain ⟨hle, hrest⟩ := hw
          cases d with
          | none => exact ⟨rfl, by simpa [bump] using hrest⟩
          | some dd =>
            have hdd : dd ≤ vv := by simpa using hle
            have hemit : emitVal (some dd) (some vv) = some vv := by
              by_cases hlt2 : dd < vv
              · simp [emitVal, hlt2]
              · have hddv : dd = vv := by omega
                simp [emitVal, hddv]
            exact ⟨hemit, by simpa [bump] using hrest⟩
      obtain ⟨hemit, hnext⟩ := hstep
      rw [mergeRun_cont p p f _ _ (mergeStep_same p p i i d bk r k v h h), hemit]
      rw [ih (i + 1) (bump v) bk (r ++ [(some k, v)]) (by omega) hnext]
      rw [hdrop]
      simp

/-- With pairwise-distinct colnames, looking a column's own colname up in
its model returns that column. -/
theorem filter_colname_eq (l : List Column) (h : (l.map (fun c => c.colname)).Nodup)
    (c : Column) (hc : c ∈ l) :
    l.filter (fun x => x.colname = c.colname) = [c] := by
  induction l with
  | nil => cases hc
  | cons a rest ih =>
    rw [List.map_cons, List.nodup_cons] at h
    obtain ⟨hnotin, hrest⟩ := h
    rcases List.mem_cons.mp hc with hca | hcr
    · subst hca
      rw [List.filter_cons_of_pos (by simp)]
      have hnil : rest.filter (fun x => x.colname = c.colname) = [] := by
        rw [List.filter_eq_nil_iff]
        intro x hx
        simp only [decide_eq_true_eq]
        intro hxc
        exact hnotin (hxc ▸ List.mem_map_of_mem (fun y => y.colname) hx)
      rw [hnil]
    · have hne : a.colname ≠ c.colname := by
        intro he
        exact hnotin (he ▸ List.mem_map_of_mem (fun y => y.colname) hcr)
      rw [List.filter_cons_of_neg (by simpa using hne)]
      exact ih hrest hcr

/-- `FieldModel.get` at a member column's colname, under unique colnames. -/
theorem FieldModel.get_self (A : FieldModel)
    (hnodup : (A.columns.map (fun c => c.colname)).Nodup) :
    ∀ c ∈ A.columns, A.get c.colname = some c := by
  intro c hc
  unfold FieldModel.get
  rw [filter_colname_eq A.columns hnodup c hc]
  rfl

/-- Rebuilding the merged columns of `merged_model(A, A)` over entries that
all carry their own display index reproduces the column list. -/
theorem buildMergedCols_self (A : FieldModel)
    (hget : ∀ c ∈ A.columns, A.get c.colname = some c)
    (hwf : ∀ c ∈ A.columns, ColumnWF c) :
    ∀ l, (∀ c ∈ l, c ∈ A.columns) →
      buildMergedCols A A
        (l.map (fun c => ((some c.colname : Option String), c.displaycolidx))) = some l := by
  intro l
  induction l with
  | nil => intro _; rfl
  | cons c cs ih =>
    intro hsub
    have hc : c ∈ A.columns := hsub c (List.mem_cons_self c cs)
    have hcs : ∀ x ∈ cs, x ∈ A.columns := fun x hx => hsub x (List.mem_cons_of_mem c hx)
    have heta : { c with displaycolidx := c.displaycolidx } = c := rfl
    simp only [List.map_cons, buildMergedCols, hget c hc, List.filterMap_cons, id_eq,
      List.filterMap_nil, Option.bind_eq_bind, mergedColumn_self c (hwf c hc),
      Option.some_bind, Option.pure_def, ih hcs, heta]

/-- `merge(p, p)` reproduces `p` when `p` is `sort_place`-stable and its
display indices satisfy `walkOKd`. -/
theorem pyMerge_self_walk (p : List (String × Option Int))
    (hs : sortPlace p = p) (hw : walkOKd none p = true) :
    pyMerge p p = some (p.map (fun kv => ((some kv.1 : Option String), kv.2))) := by
  unfold pyMerge
  rw [hs]
  have h1 : p.length + p.length + 2 ≤ (p.length + p.length + 2) * (p.length + p.length + 2) :=
    Nat.le_mul_of_pos_left _ (by omega)
  have hfuel : p.length - 0 < mergeFuel p p := by
    unfold mergeFuel
    omega
  have hrun := mergeRun_walk_eq p (mergeFuel p p) 0 none (fun _ => none) [] hfuel
    (by simpa using hw)
  simpa [mergeInit] using hrun

/-- C7 (amended): merging a `FieldModel` with itself reproduces it exactly,
provided the model is well-formed for this operation: its first column is
the synthetic `collection` column, colnames are pairwise distinct, the
column list is already in `sort_place` order with display indices strictly
increasing between `None` entries, and every column came out of the
`Column` constructor (so `img` columns carry `list`/`Arrays`).  The
counterexample `c7_merge_self_counterexample` shows the unconditional claim
fails for models whose columns are not listed in display order. -/
theorem c7_merge_self_amended (A : FieldModel)
    (hcols : ∃ c0 rest, A.columns = c0 :: rest ∧ c0.colname = "collection")
    (hnodup : (A.columns.map (fun c => c.colname)).Nodup)
    (hs : sortPlace A.premerge = A.premerge)
    (hw : walkOKd none A.premerge = true)
    (hwf : ∀ c ∈ A.columns, ColumnWF c) :
    A.mergedModel A = some A := by
  unfold FieldModel.mergedModel
  rw [pyMerge_self_walk A.premerge hs hw]
  simp only [Option.bind_eq_bind, Option.some_bind]
  have hmap : A.premerge.map (fun kv => ((some kv.1 : Option String), kv.2)) =
      A.columns.map (fun c => ((some c.colname : Option String), c.displaycolidx)) := by
    unfold FieldModel.premerge
    rw [List.map_map]
    rfl
  rw [hmap, buildMergedCols_self A (FieldModel.get_self A hnodup) hwf A.columns
    (fun c hc => hc)]
  simp only [Option.some_bind]
  obtain ⟨c0, rest, hAc, hc0⟩ := hcols
  rw [hAc]
  simp only [fieldModelMk]
  rw [if_pos hc0, ← hAc]

/-- Witness model for the amended C7. -/
def c7Good : FieldModel := ⟨[collectionColumn, simpleCol "a" 1]⟩

/-- Witness for the amended C7 on a concrete well-formed model. -/
theorem c7_merge_self_amended_witness : c7Good.mergedModel c7Good = some c7Good :=
  c7_merge_self_amended c7Good ⟨collectionColumn, [simpleCol "a" 1], rfl, by decide⟩
    (by decide) (by decide) (by decide) (by decide)

/-! ## Query cache (`QueryCache` in `api.py` over `cachetools.TTLCache`)

Time is abstracted to natural-number ticks; the third-party `TTLCache` is
modelled from its documented semantics: a write stores the value with expiry
`now + ttl`, a read returns the value only while `now < expire` and does not
itself refresh the expiry. -/

/-- A `TTLCache` slot: stored value and absolute expiry time. -/
structure TTLEntry (α : Type) where
  value : α
  expire : Nat
deriving DecidableEq

/-- Modelled from the spec: the third-party `cachetools.TTLCache` with
unbounded capacity (`TTLCache(float('inf'), ttl)`). -/
structure PyTTLCache (α : Type) where
  ttl : Nat
  store : String → Option (TTLEntry α)

/-- `TTLCache` lookup (`cache.get(key)`), `None` when absent or expired. -/
def PyTTLCache.read (c : PyTTLCache α) (now : Nat) (k : String) : Option α :=
  match c.store k with
  | some e => if now < e.expire then some e.value else none
  | none => none

/-- `TTLCache` write (`cache[key] = value`): stores with a fresh expiry. -/
def PyTTLCache.write (c : PyTTLCache α) (now : Nat) (k : String) (v : α) : PyTTLCache α :=
  { c with store := fun k2 => if k2 = k then some ⟨v, now + c.ttl⟩ else c.store k2 }

/-- `QueryCache.get` from `api.py`:

    res = self.cache.get(key)
    if res:
        self.cache[key] = res
    return res

The re-insertion refreshing the expiry is guarded by Python *truthiness* of
the stored value, abstracted as `truthy`. -/
def queryCacheGet (truthy : α → Bool) (c : PyTTLCache α) (now : Nat) (k : String) :
    Option α × PyTTLCache α :=
  match c.read now k with
  | some v => (some v, if truthy v then c.write now k v else c)
  | none => (none, c)

/-- A sequence of `QueryCache.get`s at the given times, threading the cache. -/
def runReads (truthy : α → Bool) : PyTTLCache α → String → List Nat → List (Option α) × PyTTLCache α
  | c, _, [] => ([], c)
  | c, k, t :: ts =>
    let r := queryCacheGet truthy c t k
    let rest := runReads truthy r.2 k ts
    (r.1 :: rest.1, rest.2)

/-- C9 counterexample cache: `ttl = 2`, key `"k"` written at time 0 with the
falsy value `[]` (so its expiry is 2). -/
def c9Cache : PyTTLCache (List Nat) :=
  { ttl := 2, store := fun k => if k = "k" then some ⟨[], 2⟩ else none }

/-- C9 counterexample: the claim promises every hit refreshes the expiry, so
reads at intervals shorter than the TTL never expire.  With a stored *falsy*
value (here `[]`), `if res:` skips the refresh: the read at time 1 hits and
returns the stored value, yet the read at time 2 — only 1 tick later, less
than the TTL of 2 — already misses. -/
theorem c9_touch_on_read_counterexample :
    (runReads (fun l => !l.isEmpty) c9Cache "k" [1, 2]).1 = [some [], none] ∧
    (1 : Nat) < 2 ∧ (2 : Nat) - 1 < c9Cache.ttl := by
  constructor
  · rfl
  · constructor
    · decide
    · decide

/-- C9 (amended): for keys whose stored value is *truthy*, `QueryCache.get`
is touch-on-read: a hit rewrites the entry with expiry `now + ttl`, and
consequently a chain of reads each within `ttl` of the previous one all hit
and return the stored value. -/
theorem c9_touch_on_read_amended (truthy : α → Bool) (ttl : Nat) :
    ∀ (times : List Nat) (t0 : Nat) (c : PyTTLCache α) (v : α) (e : Nat) (k : String),
      c.ttl = ttl →
      c.store k = some ⟨v, e⟩ →
      truthy v = true →
      t0 < e →
      List.Chain (fun a b => a ≤ b ∧ b - a < ttl) t0 times →
      (queryCacheGet truthy c t0 k).2.store k = some ⟨v, t0 + ttl⟩ ∧
      (runReads truthy c k (t0 :: times)).1 = (t0 :: times).map (fun _ => some v) := by
  intro times
  induction times with
  | nil =>
    intro t0 c v e k hct hstore htr hlt _
    subst hct
    constructor
    · simp [queryCacheGet, PyTTLCache.read, hstore, if_pos hlt, htr, PyTTLCache.write]
    · simp [runReads, queryCacheGet, PyTTLCache.read, hstore, if_pos hlt, htr]
  | cons t1 rest ih =>
    intro t0 c v e k hct hstore htr hlt hchain
    subst hct
    rw [List.chain_cons] at hchain
    obtain ⟨⟨hle, hgap⟩, hchain2⟩ := hchain
    have hget : queryCacheGet truthy c t0 k = (some v, c.write t0 k v) := by
      simp [queryCacheGet, PyTTLCache.read, hstore, if_pos hlt, htr]
    have hstore2 : (c.write t0 k v).store k = some ⟨v, t0 + c.ttl⟩ := by
      simp [PyTTLCache.write]
    have httl2 : (c.write t0 k v).ttl = c.ttl := rfl
    have hlt2 : t1 < t0 + c.ttl := by omega
    have hrec := ih t1 (c.write t0 k v) v (t0 + c.ttl) k httl2 hstore2 htr hlt2 hchain2
    constructor
    · rw [hget]
      exact hstore2
    · rw [runReads, hget]
      simp only [List.map_cons]
      exact congrArg (some v :: ·) hrec.2

/-- Witness cache for the amended C9: a truthy value stored at time 0. -/
def c9GoodCache : PyTTLCache (List Nat) :=
  { ttl := 2, store := fun k => if k = "k" then some ⟨[5], 2⟩ else none }

/-- Witness for the amended C9: reads at times 1 and 2 (interval 1 < ttl 2)
both hit, and the first hit refreshes the expiry to `1 + 2`. -/
theorem c9_touch_on_read_amended_witness :
    (queryCacheGet (fun l : List Nat => !l.isEmpty) c9GoodCache 1 "k").2.store "k" =
      some ⟨[5], 1 + 2⟩ ∧
    (runReads (fun l : List Nat => !l.isEmpty) c9GoodCache "k" (1 :: [2])).1 =
      (1 :: [2]).map (fun _ => some [5]) :=
  c9_touch_on_read_amended (fun l : List Nat => !l.isEmpty) 2 [2] 1 c9GoodCache [5] 2 "k"
    rfl (by decide) (by decide) (by decide)
    (List.Chain.cons ⟨by omega, by omega⟩ List.Chain.nil)

/-! ## The federating pager (`CombinedApi.query` in `controller.py`)

The per-backend client (`SpecifyApi.query` with its own cache) is abstracted
as a fixed deterministic response function `backend : String → Nat →
BackendResult`, the abstraction boundary the claims themselves use.  The
drippers (`_rand_drip` — whose PRNG is seeded from document data and hence a
deterministic function of its inputs — `_collection_drip`, `_field_drip`)
are abstracted as an arbitrary function `Dripper`; every theorem below holds
for all of them.  The per-backend document identity caches used by
`rinse_cache_items` are modelled as one map keyed by collection and `spid`
(their TTL bookkeeping is irrelevant to the claims below). -/

/-- A post-processed backend document (`spid`, `coll`, remaining payload). -/
structure Doc where
  spid : String
  coll : String
  data : String
deriving DecidableEq

/-- Per-collection cursors `{c: [backend_page, offset_in_page]}`. -/
abbrev Cursors := String → Nat × Nat

/-- The per-backend identity caches, keyed by collection and `spid`. -/
abbrev ICache := String → String → Option Doc

/-- One per-backend query response (docs of one backend page, facet counts,
total and last page as reported by that backend). -/
structure BackendResult where
  docs : List Doc
  facetCounts : List (String × Nat)
  total : Nat
  lastPage : Int
deriving DecidableEq

/-- A global combined-cache entry.  `pages` is the contiguous
`{0: …, 1: …}` dict as a list. -/
structure CacheEntry where
  pages : List (List Doc)
  endingCursors : Cursors
  facetCounts : List (String × Nat)
  total : Nat
  lastPage : Int
  lastTrickle : List Doc

/-- The mutable state `CombinedApi.query` touches: the global combined cache
and the identity caches. -/
structure GlobalState where
  cache : String → Option CacheEntry
  icache : ICache

/-- The response shape of `CombinedApi.query`. -/
structure QueryResp where
  docs : List Doc
  facetCounts : List (String × Nat)
  total : Nat
  lastPage : Int

/-- Error kinds: `ApiValidationError` versus any other uncaught exception
(`IndexError`/`KeyError`) or fuel exhaustion. -/
inductive ApiErr where
  | validation
  | internal

/-- A dripper: consumes the buffered results and cursors, yields documents
and the advanced cursors. -/
abbrev Dripper := List (String × BackendResult) → Cursors → List Doc × Cursors

/-- `rinse_cache_items(items, deep=True)` of `CombinedApi`: replace each doc
by its cached identity instance if present, else insert it, threading the
identity caches left to right. -/
def rinseDeep : ICache → List Doc → List Doc × ICache
  | ic, [] => ([], ic)
  | ic, d :: ds =>
    match ic d.coll d.spid with
    | some cd =>
      let rest := rinseDeep ic ds
      (cd :: rest.1, rest.2)
    | none =>
      let ic2 : ICache := fun c s => if c = d.coll ∧ s = d.spid then some d else ic c s
      let rest := rinseDeep ic2 ds
      (d :: rest.1, rest.2)

/-- `DEFAULT_QUERY_ROWS` of `CombinedApi`. -/
def DEFAULT_QUERY_ROWS : Nat := 50

/-- The page slicing `[docs[i:i+ROWS] for i in range(0, len(docs), ROWS)]`,
fueled by the list length. -/
def chunksAux (n : Nat) : Nat → List α → List (List α)
  | 0, _ => []
  | _ + 1, [] => []
  | f + 1, l@(_ :: _) => l.take n :: chunksAux n f (l.drop n)

/-- Slice a doc buffer into `DEFAULT_QUERY_ROWS`-sized chunks. -/
def chunks50 (l : List Doc) : List (List Doc) := chunksAux 50 l.length l

/-- The `if pages and len(pages[-1]) < ROWS: docs = pages.pop() else: docs = []`
step: full pages to commit, and the underfull remainder. -/
def splitFull (cs : List (List Doc)) : List (List Doc) × List Doc :=
  match cs.getLast? with
  | none => ([], [])
  | some l => if l.length < DEFAULT_QUERY_ROWS then (cs.dropLast, l) else (cs, [])

/-- The loop state of `CombinedApi.query`'s `while True:` drip loop.
`firstRound` tracks the Python aliasing `docs = cache_dict['last_trickle']`:
during the first round the appends and the in-place rinse mutate the
*entry's* trickle list object; slicing then rebinds `docs`, so the alias is
only live in round one. -/
structure LoopState where
  results : List (String × BackendResult)
  cursors : Cursors
  docs : List Doc
  entry : CacheEntry
  currentPage : Nat
  icache : ICache
  firstRound : Bool

/-- Outcome of one drip-loop iteration. -/
inductive RoundOut where
  | cont (st : LoopState)
  | stop (st : LoopState)

/-- One iteration of the drip loop of `CombinedApi.query`, translated
statement by statement (drip, `at_end`, `end_and_more_pages`, deep rinse,
page slicing, commits, the termination and page-quota exits, and the
refill/eviction of exhausted collections). -/
def dripRound (drip : Dripper) (backend : String → Nat → BackendResult) (page : Nat)
    (st : LoopState) : RoundOut :=
  let dres := drip st.results st.cursors
  let docs1 := st.docs ++ dres.1
  let cursors1 := dres.2
  let atEnd := st.results.filter (fun cr => (cursors1 cr.1).2 ≥ cr.2.docs.length)
  let endMore := atEnd.filter (fun cr => ((cursors1 cr.1).1 : Int) < cr.2.lastPage)
  let rr := rinseDeep st.icache docs1
  let docs2 := rr.1
  let ic1 := rr.2
  let sf := splitFull (chunks50 docs2)
  let committed := sf.1
  let docsRem := sf.2
  let trickle1 := if st.firstRound then docs2 else st.entry.lastTrickle
  let entry1 := { st.entry with pages := st.entry.pages ++ committed, lastTrickle := trickle1 }
  let currentPage1 := st.currentPage + committed.length
  if atEnd.length = st.results.length ∧ endMore.isEmpty then
    if docsRem.isEmpty then
      .stop { st with cursors := cursors1, docs := docsRem, entry := entry1, currentPage := currentPage1, icache := ic1, firstRound := false }
    else
      .stop { st with cursors := cursors1, docs := docsRem, entry := { entry1 with pages := entry1.pages ++ [docsRem], lastTrickle := [] }, currentPage := currentPage1 + 1, icache := ic1, firstRound := false }
  else if currentPage1 > page then
    .stop { st with cursors := cursors1, docs := docsRem, entry := { entry1 with lastTrickle := docsRem }, currentPage := currentPage1, icache := ic1, firstRound := false }
  else
    let cursors2 : Cursors := fun c =>
      if endMore.any (fun cr => cr.1 = c) then ((cursors1 c).1 + 1, 0) else cursors1 c
    let results2 := st.results.filterMap (fun cr =>
      if endMore.any (fun cr2 => cr2.1 = cr.1) then some (cr.1, backend cr.1 ((cursors1 cr.1).1 + 1))
      else if atEnd.any (fun cr2 => cr2.1 = cr.1) then none
      else some cr)
    .cont { results := results2, cursors := cursors2, docs := docsRem, entry := entry1, currentPage := currentPage1, icache := ic1, firstRound := false }

/-- Fueled driver of the drip loop. -/
def dripLoop (drip : Dripper) (backend : String → Nat → BackendResult) (page : Nat) :
    Nat → LoopState → Option LoopState
  | 0, _ => none
  | f + 1, st =>
    match dripRound drip backend page st with
    | .stop st2 => some st2
    | .cont st2 => dripLoop drip backend page f st2

/-- `CombinedApi._combine_facet_counts`: dict merge with summed counts
(existing keys keep their position, new keys append). -/
def facetAdd (a : List (String × Nat)) (k : String) (v : Nat) : List (String × Nat) :=
  if a.any (fun kv => kv.1 = k) then
    a.map (fun kv => if kv.1 = k then (kv.1, kv.2 + v) else kv)
  else a ++ [(k, v)]

/-- Fold `_combine_facet_counts` of one backend's facet counts into the
accumulator. -/
def combineFacetCounts (a b : List (String × Nat)) : List (String × Nat) :=
  b.foldl (fun acc kv => facetAdd acc kv.1 kv.2) a

/-- The `last_page` computation `-(-total // DEFAULT_QUERY_ROWS) - 1`
(Python `//` is floor division, `Int.fdiv`). -/
def pyLastPage (total : Nat) : Int :=
  -(Int.fdiv (-(total : Int)) (DEFAULT_QUERY_ROWS : Int)) - 1

/-- First population of a global combined-cache entry (`cache_dict is None`
branch of `CombinedApi.query`): facet counts combined across backends,
`total` the sum of per-backend totals, `last_page` by the ceiling formula.
`none` models the `IndexError` of `geos_list[0]` on an empty fan-out. -/
def mkFreshEntry (results : List (String × BackendResult)) (cursors : Cursors) :
    Option CacheEntry :=
  match results with
  | [] => none
  | r0 :: rest =>
    some { pages := [],
           endingCursors := cursors,
           facetCounts := rest.foldl (fun acc cr => combineFacetCounts acc cr.2.facetCounts)
             r0.2.facetCounts,
           total := (results.map (fun cr => cr.2.total)).sum,
           lastPage := pyLastPage ((results.map (fun cr => cr.2.total)).sum),
           lastTrickle := [] }

/-- Write-back and final page lookup after the drip loop: store the entry
(with the final cursors) under the key and return `pages[page]`; a missing
page is Python's uncaught `KeyError`. -/
def finishLoop (key : String) (page : Nat) (s : GlobalState) (st : LoopState) :
    Except ApiErr (QueryResp × GlobalState) :=
  match st.entry.pages[page]? with
  | some d =>
    .ok ({ docs := d, facetCounts := st.entry.facetCounts, total := st.entry.total,
           lastPage := st.entry.lastPage },
         { cache := fun k2 => if k2 = key then some { st.entry with endingCursors := st.cursors } else s.cache k2,
           icache := st.icache })
  | none => .error .internal

/-- The cold path of `CombinedApi.query` (cache miss, or hit without a
usable page): restore or create cursors, fan out to every collection at the
cursor pages, build the fresh entry if none existed, reject pages beyond
`last_page`, then run the drip loop and commit. -/
def loopPath (drip : Dripper) (backend : String → Nat → BackendResult)
    (collections : List String) (key : String) (page : Nat) (fuel : Nat)
    (eOpt : Option CacheEntry) (s : GlobalState) : Except ApiErr (QueryResp × GlobalState) :=
  let cursors : Cursors := match eOpt with
    | some e => e.endingCursors
    | none => fun _ => (0, 0)
  let ic1 := match eOpt with
    | some e => (rinseDeep s.icache e.pages.flatten).2
    | none => s.icache
  let curPage : Nat := match eOpt with
    | some e => e.pages.length
    | none => 0
  let results := collections.map (fun c => (c, backend c (cursors c).1))
  match (match eOpt with | some e => some e | none => mkFreshEntry results cursors) with
  | none => .error .internal
  | some entry0 =>
    if (page : Int) > entry0.lastPage then .error .validation
    else
      match dripLoop drip backend page fuel
        { results := results, cursors := cursors, docs := entry0.lastTrickle,
          entry := entry0, currentPage := curPage, icache := ic1, firstRound := true } with
      | none => .error .internal
      | some stF => finishLoop key page s stF

/-- `CombinedApi.query` for a fixed resolved sort/dripper and cache key:
cache hit with a non-empty stored page short-circuits (after rinsing pages
`0..page`), anything else goes through the loop path. -/
def combinedQuery (drip : Dripper) (backend : String → Nat → BackendResult)
    (collections : List String) (key : String) (page : Nat) (fuel : Nat)
    (s : GlobalState) : Except ApiErr (QueryResp × GlobalState) :=
  match s.cache key with
  | some e =>
    match e.pages[page]? with
    | some docs =>
      if docs.isEmpty then loopPath drip backend collections key page fuel (some e) s
      else
        .ok ({ docs := docs, facetCounts := e.facetCounts, total := e.total,
               lastPage := e.lastPage },
             { cache := s.cache,
               icache := (rinseDeep s.icache ((e.pages.take (page + 1)).flatten)).2 })
    | none => loopPath drip backend collections key page fuel (some e) s
  | none => loopPath drip backend collections key page fuel none s

/-- On a fresh key, `loopPath` rejects any page beyond the fresh entry's
`last_page` with a validation error before dripping. -/
theorem loopPath_none_reject (drip : Dripper) (backend : String → Nat → BackendResult)
    (collections : List String) (key : String) (page fuel : Nat) (s : GlobalState)
    (e : CacheEntry)
    (hfresh : mkFreshEntry (collections.map (fun c => (c, backend c 0)))
      (fun _ => (0, 0)) = some e)
    (hpage : (page : Int) > e.lastPage) :
    loopPath drip backend collections key page fuel none s = .error .validation := by
  have hdef : loopPath drip backend collections key page fuel none s =
      match mkFreshEntry (collections.map (fun c => (c, backend c 0))) (fun _ => (0, 0)) with
      | none => Except.error ApiErr.internal
      | some entry0 =>
        if (page : Int) > entry0.lastPage then Except.error ApiErr.validation
        else
          match dripLoop drip backend page fuel
            { results := collections.map (fun c => (c, backend c 0)), cursors := fun _ => (0, 0),
              docs := entry0.lastTrickle, entry := entry0, currentPage := 0,
              icache := s.icache, firstRound := true } with
          | none => Except.error ApiErr.internal
          | some stF => finishLoop key page s stF := rfl
  rw [hdef]
  simp only [hfresh]
  rw [if_pos hpage]

/-- C10: when every selected backend reports `total = 0`, the freshly
populated entry has `last_page = -(-0 // 50) - 1 = -1`, and every page
request — page 0 included — fails with a validation error instead of
returning an empty document list. -/
theorem c10_zero_total_rejects_all_pages (drip : Dripper)
    (backend : String → Nat → BackendResult) (collections : List String)
    (key : String) (page fuel : Nat) (s : GlobalState)
    (hmiss : s.cache key = none)
    (hne : collections ≠ [])
    (hzero : ∀ c ∈ collections, (backend c 0).total = 0) :
    (∃ e, mkFreshEntry (collections.map (fun c => (c, backend c 0)))
        (fun _ => (0, 0)) = some e ∧ e.lastPage = -1) ∧
    combinedQuery drip backend collections key page fuel s = .error .validation := by
  have hsum : (((collections.map (fun c => (c, backend c 0))).map (fun cr => cr.2.total)).sum) = 0 := by
    rw [List.map_map]
    exact List.sum_eq_zero (fun x hx => by
      obtain ⟨c, hc, hcx⟩ := List.mem_map.mp hx
      rw [← hcx]
      exact hzero c hc)
  have hlp : pyLastPage 0 = -1 := by decide
  cases collections with
  | nil => exact absurd rfl hne
  | cons c0 cs =>
    have hfresh : mkFreshEntry ((c0 :: cs).map (fun c => (c, backend c 0)))
        (fun _ => ((0 : Nat), (0 : Nat))) =
        some { pages := [],
               endingCursors := fun _ => (0, 0),
               facetCounts := (cs.map (fun c => (c, backend c 0))).foldl
                 (fun acc cr => combineFacetCounts acc cr.2.facetCounts)
                 (backend c0 0).facetCounts,
               total := (((c0 :: cs).map (fun c => (c, backend c 0))).map (fun cr => cr.2.total)).sum,
               lastPage := pyLastPage ((((c0 :: cs).map (fun c => (c, backend c 0))).map (fun cr => cr.2.total)).sum),
               lastTrickle := [] } := rfl
    have hlast : pyLastPage ((((c0 :: cs).map (fun c => (c, backend c 0))).map (fun cr => cr.2.total)).sum) = -1 := by
      rw [hsum]
      exact hlp
    constructor
    · exact ⟨_, hfresh, hlast⟩
    · have hq : combinedQuery drip backend (c0 :: cs) key page fuel s =
          loopPath drip backend (c0 :: cs) key page fuel none s := by
        simp only [combinedQuery, hmiss]
      rw [hq]
      refine loopPath_none_reject drip backend (c0 :: cs) key page fuel s _ hfresh ?_
      simp only [hlast]
      omega

/-- Witness backend for C10: one collection reporting zero documents. -/
def c10Backend : String → Nat → BackendResult :=
  fun _ _ => { docs := [], facetCounts := [], total := 0, lastPage := -1 }

/-- Witness for C10: a concrete empty-result fan-out is rejected at page 0. -/
theorem c10_zero_total_rejects_all_pages_witness :
    (∃ e, mkFreshEntry (["A"].map (fun c => (c, c10Backend c 0)))
        (fun _ => (0, 0)) = some e ∧ e.lastPage = -1) ∧
    combinedQuery (fun _ cur => ([], cur)) c10Backend ["A"] "k" 0 5
      { cache := fun _ => none, icache := fun _ _ => none } = .error .validation :=
  c10_zero_total_rejects_all_pages (fun _ cur => ([], cur)) c10Backend ["A"] "k" 0 5
    { cache := fun _ => none, icache := fun _ _ => none } rfl (by decide)
    (fun c _ => rfl)

/-- The drip loop never touches an entry's `total`, `last_page` or
`facet_counts`. -/
def RoundEntryInv (st st2 : LoopState) : Prop :=
  st2.entry.total = st.entry.total ∧ st2.entry.lastPage = st.entry.lastPage ∧
  st2.entry.facetCounts = st.entry.facetCounts

/-- Extract the state carried by either outcome of a round. -/
def roundState : RoundOut → LoopState
  | .cont st2 => st2
  | .stop st2 => st2

theorem dripRound_out (drip : Dripper) (backend : String → Nat → BackendResult)
    (page : Nat) (st : LoopState) :
    RoundEntryInv st (roundState (dripRound drip backend page st)) := by
  unfold dripRound
  simp only [apply_ite roundState]
  simp only [roundState]
  split
  · split
    · exact ⟨rfl, rfl, rfl⟩
    · exact ⟨rfl, rfl, rfl⟩
  · split
    · exact ⟨rfl, rfl, rfl⟩
    · exact ⟨rfl, rfl, rfl⟩

theorem dripRound_entry_fields (drip : Dripper) (backend : String → Nat → BackendResult)
    (page : Nat) (st : LoopState) :
    (∀ st2, dripRound drip backend page st = .cont st2 → RoundEntryInv st st2) ∧
    (∀ st2, dripRound drip backend page st = .stop st2 → RoundEntryInv st st2) := by
  constructor <;> intro st2 h <;>
    (have h2 := dripRound_out drip backend page st; rw [h] at h2; exact h2)

theorem dripRound_entry_cont (drip : Dripper) (backend : String → Nat → BackendResult)
    (page : Nat) (st st2 : LoopState) (h : dripRound drip backend page st = .cont st2) :
    RoundEntryInv st st2 :=
  (dripRound_entry_fields drip backend page st).1 st2 h

theorem dripLoop_entry_fields (drip : Dripper) (backend : String → Nat → BackendResult)
    (page : Nat) :
    ∀ fuel st stF, dripLoop drip backend page fuel st = some stF → RoundEntryInv st stF := by
  intro fuel
  induction fuel with
  | zero => intro st stF h; exact absurd h (by simp [dripLoop])
  | succ f ih =>
    intro st stF h
    rw [dripLoop] at h
    cases hr : dripRound drip backend page st with
    | stop st2 =>
      rw [hr] at h
      obtain rfl : st2 = stF := by simpa using h
      exact (dripRound_entry_fields drip backend page st).2 _ hr
    | cont st2 =>
      rw [hr] at h
      have h1 := (dripRound_entry_fields drip backend page st).1 st2 hr
      have h2 := ih st2 stF h
      exact ⟨h2.1.trans h1.1, h2.2.1.trans h1.2.1, h2.2.2.trans h1.2.2⟩

/-- Definitional unfolding of `loopPath` on a cache miss. -/
theorem loopPath_none_def (drip : Dripper) (backend : String → Nat → BackendResult)
    (collections : List String) (key : String) (page fuel : Nat) (s : GlobalState) :
    loopPath drip backend collections key page fuel none s =
      match mkFreshEntry (collections.map (fun c => (c, backend c 0))) (fun _ => (0, 0)) with
      | none => Except.error ApiErr.internal
      | some entry0 =>
        if (page : Int) > entry0.lastPage then Except.error ApiErr.validation
        else
          match dripLoop drip backend page fuel
            { results := collections.map (fun c => (c, backend c 0)), cursors := fun _ => (0, 0),
              docs := entry0.lastTrickle, entry := entry0, currentPage := 0,
              icache := s.icache, firstRound := true } with
          | none => Except.error ApiErr.internal
          | some stF => finishLoop key page s stF := rfl

/-- Definitional unfolding of `loopPath` on a partial hit. -/
theorem loopPath_some_def (drip : Dripper) (backend : String → Nat → BackendResult)
    (collections : List String) (key : String) (page fuel : Nat) (e : CacheEntry)
    (s : GlobalState) :
    loopPath drip backend collections key page fuel (some e) s =
      (if (page : Int) > e.lastPage then Except.error ApiErr.validation
       else
        match dripLoop drip backend page fuel
          { results := collections.map (fun c => (c, backend c ((e.endingCursors c).1))),
            cursors := e.endingCursors, docs := e.lastTrickle, entry := e,
            currentPage := e.pages.length,
            icache := (rinseDeep s.icache e.pages.flatten).2, firstRound := true } with
        | none => Except.error ApiErr.internal
        | some stF => finishLoop key page s stF) := rfl

/-- Inversion of a successful `finishLoop`. -/
theorem finishLoop_ok_inv (key : String) (page : Nat) (s : GlobalState) (st : LoopState)
    (r : QueryResp) (s2 : GlobalState) (h : finishLoop key page s st = .ok (r, s2)) :
    ∃ d, st.entry.pages[page]? = some d ∧
      r = { docs := d, facetCounts := st.entry.facetCounts, total := st.entry.total,
            lastPage := st.entry.lastPage } ∧
      s2 = { cache := fun k2 => if k2 = key then some { st.entry with endingCursors := st.cursors } else s.cache k2,
             icache := st.icache } := by
  unfold finishLoop at h
  cases hpp : st.entry.pages[page]? with
  | none => rw [hpp] at h; exact absurd h (by simp)
  | some d =>
    rw [hpp] at h
    have hd := Except.ok.inj h
    exact ⟨d, rfl, (Prod.mk.injEq _ _ _ _).mp hd |>.1.symm, (Prod.mk.injEq _ _ _ _).mp hd |>.2.symm⟩

/-- Inversion of a successful fresh-entry construction. -/
theorem mkFreshEntry_inv (results : List (String × BackendResult)) (cursors : Cursors)
    (e : CacheEntry) (h : mkFreshEntry results cursors = some e) :
    e.total = (results.map (fun cr => cr.2.total)).sum ∧
    e.lastPage = pyLastPage e.total ∧ e.pages = [] ∧ e.lastTrickle = [] := by
  cases results with
  | nil => exact absurd h (by simp [mkFreshEntry])
  | cons r0 rest =>
    rw [mkFreshEntry] at h
    obtain rfl := (Option.some.inj h).symm
    exact ⟨rfl, rfl, rfl, rfl⟩

/-- `-(-t // 50) - 1` is `⌈t / 50⌉ - 1`. -/
theorem pyLastPage_eq_ceil (t : Nat) :
    pyLastPage t = ⌈(t : ℚ) / ((DEFAULT_QUERY_ROWS : ℕ) : ℚ)⌉ - 1 := by
  have h4 : ⌈(t : ℚ) / (50 : ℚ)⌉ = (((t + 49) / 50 : ℕ) : Int) := by
    have hd1 : ((t + 49) / 50) * 50 ≤ t + 49 := Nat.div_mul_le_self _ _
    have hd2 : t ≤ ((t + 49) / 50) * 50 := by omega
    generalize hz : (t + 49) / 50 = z at hd1 hd2
    rw [Int.ceil_eq_iff]
    constructor
    · have hq1 : (z : ℚ) * 50 ≤ (t : ℚ) + 49 := by exact_mod_cast hd1
      rw [lt_div_iff₀ (by norm_num : (0 : ℚ) < 50)]
      push_cast
      linarith
    · have hq2 : (t : ℚ) ≤ (z : ℚ) * 50 := by exact_mod_cast hd2
      rw [div_le_iff₀ (by norm_num : (0 : ℚ) < 50)]
      push_cast
      linarith
  unfold pyLastPage DEFAULT_QUERY_ROWS
  simp only [Nat.cast_ofNat]
  rw [h4, Int.fdiv_eq_ediv _ (by norm_num)]
  omega

/-- C4: on the first population of a global combined-cache entry (cache miss
on the key), the stored entry's `total` is the sum of the per-backend totals
of the selected collections (each queried at backend page 0), its
`last_page` is `⌈total / DEFAULT_QUERY_ROWS⌉ - 1`, and the response reports
the same two values. -/
theorem c4_first_population_totals (drip : Dripper)
    (backend : String → Nat → BackendResult) (collections : List String)
    (key : String) (page fuel : Nat) (s : GlobalState) (r : QueryResp) (s2 : GlobalState)
    (hmiss : s.cache key = none)
    (hok : combinedQuery drip backend collections key page fuel s = .ok (r, s2)) :
    ∃ e, s2.cache key = some e ∧
      e.total = (collections.map (fun c => (backend c 0).total)).sum ∧
      e.lastPage = ⌈(e.total : ℚ) / ((DEFAULT_QUERY_ROWS : ℕ) : ℚ)⌉ - 1 ∧
      r.total = e.total ∧ r.lastPage = e.lastPage := by
  have hq : combinedQuery drip backend collections key page fuel s =
      loopPath drip backend collections key page fuel none s := by
    simp only [combinedQuery, hmiss]
  rw [hq, loopPath_none_def] at hok
  cases hfr : mkFreshEntry (collections.map (fun c => (c, backend c 0))) (fun _ => (0, 0)) with
  | none =>
    simp only [hfr] at hok
    exact absurd hok (by simp)
  | some entry0 =>
    simp only [hfr] at hok
    by_cases hpg : (page : Int) > entry0.lastPage
    · rw [if_pos hpg] at hok
      exact absurd hok (by simp)
    · rw [if_neg hpg] at hok
      cases hdl : dripLoop drip backend page fuel
          { results := collections.map (fun c => (c, backend c 0)), cursors := fun _ => (0, 0),
            docs := entry0.lastTrickle, entry := entry0, currentPage := 0,
            icache := s.icache, firstRound := true } with
      | none =>
        simp only [hdl] at hok
        exact absurd hok (by simp)
      | some stF =>
        simp only [hdl] at hok
        obtain ⟨d, hpp, hr, hs2⟩ := finishLoop_ok_inv key page s stF r s2 hok
        have hinv := dripLoop_entry_fields drip backend page fuel _ stF hdl
        obtain ⟨hfe1, hfe2, _, _⟩ := mkFreshEntry_inv _ _ entry0 hfr
        refine ⟨{ stF.entry with endingCursors := stF.cursors }, ?_, ?_, ?_, ?_, ?_⟩
        · rw [hs2]
          simp
        · show stF.entry.total = _
          rw [hinv.1, hfe1, List.map_map]
          rfl
        · show stF.entry.lastPage = _
          rw [hinv.2.1, hfe2, hinv.1, ← pyLastPage_eq_ceil]
        · rw [hr]
        · rw [hr]

/-- A concrete dripper for witnesses: yields every buffered document of
every collection from its current offset and advances every cursor offset
to the end of its buffer (the behaviour of a drip run to exhaustion). -/
def drainDrip : Dripper := fun results cursors =>
  ((results.map (fun cr => cr.2.docs.drop ((cursors cr.1).2))).flatten,
   fun c =>
     match results.find? (fun cr => cr.1 = c) with
     | some cr => ((cursors c).1, cr.2.docs.length)
     | none => cursors c)

/-- Witness backend for C4: one collection, one document, total 1. -/
def c4Backend : String → Nat → BackendResult :=
  fun _ _ => { docs := [{ spid := "s1", coll := "A", data := "" }],
               facetCounts := [("g", 1)], total := 1, lastPage := 0 }

/-- The empty starting state shared by the pager witnesses. -/
def emptyGlobalState : GlobalState := { cache := fun _ => none, icache := fun _ _ => none }

/-- Witness for C4: a concrete first-population run. -/
theorem c4_first_population_totals_witness :
    ∃ r s2 e, combinedQuery drainDrip c4Backend ["A"] "k" 0 5 emptyGlobalState = .ok (r, s2) ∧
      s2.cache "k" = some e ∧
      e.total = (["A"].map (fun c => (c4Backend c 0).total)).sum ∧
      e.lastPage = ⌈(e.total : ℚ) / ((DEFAULT_QUERY_ROWS : ℕ) : ℚ)⌉ - 1 ∧
      r.total = e.total ∧ r.lastPage = e.lastPage := by
  obtain ⟨r, s2, hok⟩ :
      ∃ r s2, combinedQuery drainDrip c4Backend ["A"] "k" 0 5 emptyGlobalState = .ok (r, s2) :=
    ⟨_, _, rfl⟩
  obtain ⟨e, h1, h2, h3, h4, h5⟩ :=
    c4_first_population_totals drainDrip c4Backend ["A"] "k" 0 5 emptyGlobalState r s2 rfl hok
  exact ⟨r, s2, e, hok, h1, h2, h3, h4, h5⟩

/-- Every chunk produced by the page slicing is non-empty. -/
theorem chunksAux_ne_nil (f : Nat) : ∀ (l : List α), ∀ c ∈ chunksAux 50 f l, c ≠ [] := by
  induction f with
  | zero => intro l c hc; simp [chunksAux] at hc
  | succ f ih =>
    intro l c hc
    cases l with
    | nil => simp [chunksAux] at hc
    | cons x xs =>
      simp only [chunksAux] at hc
      rcases List.mem_cons.mp hc with h1 | h2
      · subst h1
        simp
      · exact ih _ c h2

/-- Every chunk of `chunks50` is non-empty. -/
theorem chunks50_ne_nil (l : List Doc) : ∀ c ∈ chunks50 l, c ≠ [] := by
  unfold chunks50
  exact chunksAux_ne_nil _ _

/-- The committed full pages of `splitFull` are all non-empty when the
chunks are. -/
theorem splitFull_committed_ne_nil (cs : List (List Doc)) (h : ∀ c ∈ cs, c ≠ []) :
    ∀ p ∈ (splitFull cs).1, p ≠ [] := by
  unfold splitFull
  cases hl : cs.getLast? with
  | none => simp
  | some l =>
    dsimp only
    by_cases hlen : l.length < DEFAULT_QUERY_ROWS
    · rw [if_pos hlen]
      intro p hp
      exact h p (List.dropLast_subset _ hp)
    · rw [if_neg hlen]
      exact h

/-- A drip-loop round preserves "all committed pages are non-empty". -/
theorem dripRound_pages_nonempty (drip : Dripper) (backend : String → Nat → BackendResult)
    (page : Nat) (st : LoopState) (h : ∀ p ∈ st.entry.pages, p ≠ []) :
    ∀ p ∈ (roundState (dripRound drip backend page st)).entry.pages, p ≠ [] := by
  unfold dripRound
  simp only [apply_ite roundState]
  simp only [roundState]
  split
  · split
    · intro p hp
      rcases List.mem_append.mp hp with h1 | h2
      · exact h p h1
      · exact splitFull_committed_ne_nil _ (chunks50_ne_nil _) p h2
    · rename_i hA hrem
      intro p hp
      rcases List.mem_append.mp hp with h12 | h3
      · rcases List.mem_append.mp h12 with h1 | h2
        · exact h p h1
        · exact splitFull_committed_ne_nil _ (chunks50_ne_nil _) p h2
      · have hpd : p = (splitFull (chunks50 (rinseDeep st.icache (st.docs ++ (drip st.results st.cursors).1)).1)).2 := by
          simpa using h3
        subst hpd
        simpa [List.isEmpty_iff] using hrem
  · split
    · intro p hp
      rcases List.mem_append.mp hp with h1 | h2
      · exact h p h1
      · exact splitFull_committed_ne_nil _ (chunks50_ne_nil _) p h2
    · intro p hp
      rcases List.mem_append.mp hp with h1 | h2
      · exact h p h1
      · exact splitFull_committed_ne_nil _ (chunks50_ne_nil _) p h2

/-- The whole drip loop preserves "all committed pages are non-empty". -/
theorem dripLoop_pages_nonempty (drip : Dripper) (backend : String → Nat → BackendResult)
    (page : Nat) :
    ∀ fuel st stF, dripLoop drip backend page fuel st = some stF →
      (∀ p ∈ st.entry.pages, p ≠ []) → ∀ p ∈ stF.entry.pages, p ≠ [] := by
  intro fuel
  induction fuel with
  | zero => intro st stF h; exact absurd h (by simp [dripLoop])
  | succ f ih =>
    intro st stF h hne
    rw [dripLoop] at h
    cases hr : dripRound drip backend page st with
    | stop st2 =>
      rw [hr] at h
      obtain rfl : st2 = stF := by simpa using h
      have h2 := dripRound_pages_nonempty drip backend page st hne
      rw [hr] at h2
      exact h2
    | cont st2 =>
      rw [hr] at h
      have h2 := dripRound_pages_nonempty drip backend page st hne
      rw [hr] at h2
      exact ih st2 stF h h2

/-- Global-state well-formedness: every cached entry's pages are non-empty
(true of every state the pager itself produces, since committed pages are
either full or a non-empty final page). -/
def PagesWF (s : GlobalState) : Prop :=
  ∀ k e, s.cache k = some e → ∀ p ∈ e.pages, p ≠ []

/-- After any successful pager call, the key holds an entry whose
`pages[page]` is exactly the returned non-empty document list. -/
theorem combinedQuery_stores_page (drip : Dripper) (backend : String → Nat → BackendResult)
    (collections : List String) (key : String) (page fuel : Nat) (s : GlobalState)
    (r : QueryResp) (s2 : GlobalState)
    (hwf : PagesWF s)
    (hok : combinedQuery drip backend collections key page fuel s = .ok (r, s2)) :
    ∃ e2, s2.cache key = some e2 ∧ e2.pages[page]? = some r.docs ∧ r.docs ≠ [] ∧
      r.facetCounts = e2.facetCounts ∧ r.total = e2.total ∧ r.lastPage = e2.lastPage ∧
      PagesWF s2 := by
  have hloop : ∀ eOpt, (∀ e0, eOpt = some e0 → ∀ p ∈ e0.pages, p ≠ []) →
      loopPath drip backend collections key page fuel eOpt s = .ok (r, s2) →
      ∃ e2, s2.cache key = some e2 ∧ e2.pages[page]? = some r.docs ∧ r.docs ≠ [] ∧
        r.facetCounts = e2.facetCounts ∧ r.total = e2.total ∧ r.lastPage = e2.lastPage ∧
        PagesWF s2 := by
    intro eOpt hne hok2
    have hfin : ∃ stF, finishLoop key page s stF = .ok (r, s2) ∧ ∀ p ∈ stF.entry.pages, p ≠ [] := by
      cases eOpt with
      | none =>
        rw [loopPath_none_def] at hok2
        cases hfr : mkFreshEntry (collections.map (fun c => (c, backend c 0))) (fun _ => (0, 0)) with
        | none =>
          simp only [hfr] at hok2
          exact absurd hok2 (by simp)
        | some entry0 =>
          simp only [hfr] at hok2
          by_cases hpg : (page : Int) > entry0.lastPage
          · rw [if_pos hpg] at hok2
            exact absurd hok2 (by simp)
          · rw [if_neg hpg] at hok2
            cases hdl : dripLoop drip backend page fuel
                { results := collections.map (fun c => (c, backend c 0)), cursors := fun _ => (0, 0),
                  docs := entry0.lastTrickle, entry := entry0, currentPage := 0,
                  icache := s.icache, firstRound := true } with
            | none =>
              simp only [hdl] at hok2
              exact absurd hok2 (by simp)
            | some stF =>
              simp only [hdl] at hok2
              refine ⟨stF, hok2, ?_⟩
              refine dripLoop_pages_nonempty drip backend page fuel _ stF hdl ?_
              obtain ⟨_, _, hp0, _⟩ := mkFreshEntry_inv _ _ entry0 hfr
              intro p hp
              rw [hp0] at hp
              cases hp
      | some e =>
        rw [loopPath_some_def] at hok2
        by_cases hpg : (page : Int) > e.lastPage
        · rw [if_pos hpg] at hok2
          exact absurd hok2 (by simp)
        · rw [if_neg hpg] at hok2
          cases hdl : dripLoop drip backend page fuel
              { results := collections.map (fun c => (c, backend c ((e.endingCursors c).1))),
                cursors := e.endingCursors, docs := e.lastTrickle, entry := e,
                currentPage := e.pages.length,
                icache := (rinseDeep s.icache e.pages.flatten).2, firstRound := true } with
          | none =>
            simp only [hdl] at hok2
            exact absurd hok2 (by simp)
          | some stF =>
            simp only [hdl] at hok2
            exact ⟨stF, hok2, dripLoop_pages_nonempty drip backend page fuel _ stF hdl (hne e rfl)⟩
    obtain ⟨stF, hfin2, hnef⟩ := hfin
    obtain ⟨d, hpp, hr, hs2⟩ := finishLoop_ok_inv key page s stF r s2 hfin2
    have hd : d ∈ stF.entry.pages := by
      have := List.getElem?_eq_some_iff.mp hpp
      obtain ⟨hlt, hget⟩ := this
      rw [← hget]
      exact List.getElem_mem hlt
    refine ⟨{ stF.entry with endingCursors := stF.cursors }, ?_, ?_, ?_, ?_, ?_, ?_, ?_⟩
    · rw [hs2]
      simp
    · show stF.entry.pages[page]? = some r.docs
      rw [hpp, hr]
    · rw [hr]
      exact hnef d hd
    · rw [hr]
    · rw [hr]
    · rw [hr]
    · rw [hs2]
      intro k e h p hp
      by_cases hk : k = key
      · simp only [hk, if_pos rfl] at h
        obtain rfl := Option.some.inj h
        exact hnef p hp
      · simp only [if_neg hk] at h
        exact hwf k e h p hp
  rw [combinedQuery] at hok
  cases hc : s.cache key with
  | none =>
    rw [hc] at hok
    exact hloop none (by intro e0 h0; cases h0) hok
  | some e =>
    rw [hc] at hok
    cases hpp : e.pages[page]? with
    | none =>
      simp only [hpp] at hok
      exact hloop (some e) (by intro e0 h0; cases Option.some.inj h0; exact hwf key e hc) hok
    | some docs =>
      simp only [hpp] at hok
      by_cases hde : docs.isEmpty
      · rw [if_pos hde] at hok
        exact hloop (some e) (by intro e0 h0; cases Option.some.inj h0; exact hwf key e hc) hok
      · rw [if_neg hde] at hok
        have hd := Except.ok.inj hok
        have hrr := ((Prod.mk.injEq _ _ _ _).mp hd).1
        have hss := ((Prod.mk.injEq _ _ _ _).mp hd).2
        refine ⟨e, ?_, ?_, ?_, ?_, ?_, ?_, ?_⟩
        · rw [← hss]
          exact hc
        · rw [← hrr, hpp]
        · rw [← hrr]
          simpa [List.isEmpty_iff] using hde
        · rw [← hrr]
        · rw [← hrr]
        · rw [← hrr]
        · rw [← hss]
          exact hwf

/-- C5: the pager is deterministic across repeated calls.  For any fixed
deterministic backend response model and any dripper (all three concrete
drippers, including the `spid`-seeded `_rand_drip`, are deterministic
functions of their inputs), a successful call from a well-formed state
stores the returned page under the key, and the immediately repeated call
with the same arguments succeeds and returns exactly the same documents in
the same order (via the cache-hit short circuit). -/
theorem c5_pager_deterministic (drip : Dripper) (backend : String → Nat → BackendResult)
    (collections : List String) (key : String) (page fuel : Nat) (s : GlobalState)
    (r1 : QueryResp) (s1 : GlobalState)
    (hwf : PagesWF s)
    (hok : combinedQuery drip backend collections key page fuel s = .ok (r1, s1)) :
    ∃ r2 s2, combinedQuery drip backend collections key page fuel s1 = .ok (r2, s2) ∧
      r2.docs = r1.docs := by
  obtain ⟨e2, hc, hp, hne, _, _, _, _⟩ :=
    combinedQuery_stores_page drip backend collections key page fuel s r1 s1 hwf hok
  have hie : r1.docs.isEmpty = false := by
    cases hd : r1.docs with
    | nil => exact absurd hd hne
    | cons a l => simp [hd]
  refine ⟨{ docs := r1.docs, facetCounts := e2.facetCounts, total := e2.total,
            lastPage := e2.lastPage },
          { cache := s1.cache,
            icache := (rinseDeep s1.icache ((e2.pages.take (page + 1)).flatten)).2 }, ?_, rfl⟩
  rw [combinedQuery, hc]
  simp only [hp, hie, Bool.false_eq_true, if_false]

/-- Witness for C5: a concrete run called twice returns the same documents. -/
theorem c5_pager_deterministic_witness :
    ∃ r1 s1 r2 s2,
      combinedQuery drainDrip c4Backend ["A"] "k" 0 5 emptyGlobalState = .ok (r1, s1) ∧
      combinedQuery drainDrip c4Backend ["A"] "k" 0 5 s1 = .ok (r2, s2) ∧
      r2.docs = r1.docs := by
  obtain ⟨r1, s1, h1⟩ :
      ∃ r1 s1, combinedQuery drainDrip c4Backend ["A"] "k" 0 5 emptyGlobalState = .ok (r1, s1) :=
    ⟨_, _, rfl⟩
  obtain ⟨r2, s2, h2, hd⟩ :=
    c5_pager_deterministic drainDrip c4Backend ["A"] "k" 0 5 emptyGlobalState r1 s1
      (by intro k e h p hp; simp [emptyGlobalState] at h) h1
  exact ⟨r1, s1, r2, s2, h1, h2, hd⟩

/-- Fifty distinct documents of collection `A` — exactly one full global
page. -/
def c6Docs : List Doc :=
  (List.range 50).map (fun i => { spid := toString i, coll := "A", data := "" })

/-- C6 failing backend: one collection returning exactly 50 documents
(total 50, one backend page). -/
def c6Backend : String → Nat → BackendResult :=
  fun _ _ => { docs := c6Docs, facetCounts := [], total := 50, lastPage := 0 }

set_option maxRecDepth 16384 in
/-- C6: the claimed invariant `sum(len(p) for p in pages.values()) +
len(last_trickle) ≤ docs produced by the backends` is violated by the code.
`docs = cache_dict['last_trickle']` aliases the entry's trickle list, so the
first round's appends (and in-place rinse) mutate it; on the termination
exit with an empty remainder the code never resets `last_trickle`, leaving
the very documents just committed to `pages[0]` also stored as
`last_trickle`: 50 + 50 = 100 documents counted out of only 50 produced. -/
theorem c6_trickle_double_count :
    ∃ r s1 e, combinedQuery drainDrip c6Backend ["A"] "k" 0 5 emptyGlobalState = .ok (r, s1) ∧
      s1.cache "k" = some e ∧
      (e.pages.map List.length).sum = 50 ∧
      e.lastTrickle.length = 50 ∧
      (c6Backend "A" 0).docs.length = 50 ∧
      ¬((e.pages.map List.length).sum + e.lastTrickle.length ≤ (c6Backend "A" 0).docs.length) := by
  refine ⟨_, _, _, rfl, rfl, ?_, ?_, ?_, ?_⟩
  · decide
  · decide
  · decide
  · decide

/-- The empty starting state is well-formed. -/
theorem emptyGlobalState_wf : PagesWF emptyGlobalState := by
  intro k e h p hp
  simp [emptyGlobalState] at h

/-- The pager preserves well-formedness: every state it produces again has
only non-empty cached pages, so the hypothesis of the determinism theorem
is an invariant of all pager-reachable states. -/
theorem combinedQuery_preserves_pagesWF (drip : Dripper)
    (backend : String → Nat → BackendResult) (collections : List String)
    (key : String) (page fuel : Nat) (s : GlobalState) (r : QueryResp) (s2 : GlobalState)
    (hwf : PagesWF s)
    (hok : combinedQuery drip backend collections key page fuel s = .ok (r, s2)) :
    PagesWF s2 :=
  (combinedQuery_stores_page drip backend collections key page fuel s r s2 hwf hok).choose_spec.2.2.2.2.2.2
